import Mathlib

/-!
Verification of the background-removal / PDF-compression orchestration core of
the Fileresizerpro repository (server/remove-bg.js, server/compress-pdf.js).

Shallow embedding conventions:
* JS byte buffers are `List Nat` (only contents and length matter to the core).
* External effects (HTTP calls via axios, the sharp image pipelines, the
  ghostscript/qpdf tool runs) are oracles packaged in an environment record;
  a rejected promise is an `Except.error` carrying the thrown message.
* Dollar amounts are modelled in integer cents (0.02 USD = 2) to stay away
  from floating point; text produced by float formatting (the "reduction"
  percentage strings, the megabyte figure inside the size error message) is
  either omitted or approximated with Nat division, with a note at each site.
* Each orchestration function additionally returns a trace of the externally
  visible events it performed (provider invocations, tool runs, temp-file
  writes), so that claims of the form "X is never contacted" are statable.
-/

namespace FileResizer

/-- A JS byte buffer: only its contents / length are relevant to the core. -/
abbrev Buffer := List Nat

/-! ## server/remove-bg.js : data model (constructor, lines 8-52) -/

/-- One entry of `this.services` (remove-bg.js lines 10-29).
`costPerImage` is in integer cents (source: dollars, e.g. 0.02). -/
structure Service where
  name : String
  url : String
  apiKey : Option String
  costPerImage : Nat
  deriving Repr, DecidableEq

/-- One entry of `this.localModels` (remove-bg.js lines 32-51). -/
structure LocalModel where
  name : String
  description : String
  size : String
  deriving Repr, DecidableEq

/-- The `apiKeys` constructor argument (remove-bg.js line 9). -/
structure ApiKeys where
  removebg : Option String := none
  backgrounds : Option String := none
  clipdrop : Option String := none
  deriving Repr, DecidableEq

/-- The `this.services` catalog (remove-bg.js lines 10-29): a fixed map from
service key to descriptor; the three entries exist regardless of which API
keys are present. Costs 0.02 / 0.03 / 0.10 USD are 2 / 3 / 10 cents. -/
def services (keys : ApiKeys) : String → Option Service := fun k =>
  if k = "removebg" then
    some { name := "Remove.bg", url := "https://api.remove.bg/v1.0/removebg",
           apiKey := keys.removebg, costPerImage := 2 }
  else if k = "backgrounds" then
    some { name := "BackgroundRemover.ai", url := "https://api.backgroundremover.ai/v1/remove",
           apiKey := keys.backgrounds, costPerImage := 3 }
  else if k = "clipdrop" then
    some { name := "Clipdrop by Stability AI", url := "https://clipdrop-api.co/remove-background/v1",
           apiKey := keys.clipdrop, costPerImage := 10 }
  else none

/-- The `this.localModels` catalog (remove-bg.js lines 32-51). -/
def localModels : String → Option LocalModel := fun k =>
  if k = "u2net" then
    some { name := "U^2-Net", description := "State-of-the-art saliency object detection", size := "176MB" }
  else if k = "rembg" then
    some { name := "Rembg", description := "Python library with multiple models", size := "Various" }
  else if k = "modnet" then
    some { name := "MODNet", description := "Real-time portrait matting", size := "24MB" }
  else none

/-- The one options bag threaded through remove-bg.js: `priority`,
`fallbackToLocal`, `maxFileSize` are destructured in `autoRemoveBackground`
(lines 166-170) with the defaults shown; `size`/`type`/`format`/`bg_color`
feed the multipart form in `removeWithService` (lines 72-75); `concurrent`
is destructured in `batchRemoveBackground` (line 263). -/
structure ROptions where
  priority : List String := ["local", "removebg", "backgrounds", "clipdrop"]
  fallbackToLocal : Bool := true
  maxFileSize : Nat := 10 * 1024 * 1024
  size : Option String := none
  type : Option String := none
  format : Option String := none
  bg_color : Option String := none
  concurrent : Nat := 3
  deriving Repr, DecidableEq

/-- Outcome of the axios POST in `removeWithService` (lines 78-105): either a
binary body plus optional content-type header, or a rejection carrying the
HTTP status (when a response exists) and a message. -/
inductive HttpOutcome where
  | ok (data : Buffer) (contentType : Option String)
  | fail (status : Option Nat) (message : String)
  deriving Repr, DecidableEq

/-- Environment of external effects for remove-bg.js. Each field is one of
the awaited external operations, as a deterministic oracle:
* `http s buf opts` — the axios POST of `removeWithService` for service key
  `s` (the multipart form fields come from `buf` and `opts`);
* `localPipeline buf` — the sharp metadata/mask/composite pipeline of
  `removeWithLocalModel` (lines 125-153), rejecting on undecodable input;
* `threshold buf` — the sharp ensureAlpha/threshold(240)/png pipeline of
  `createBasicTransparency` (lines 201-208), rejecting on undecodable input;
* `metaDims buf` — `sharp(buf).metadata()` width/height as used in
  `replaceBackground` (lines 230-231);
* `toBufferRender buf` — `foregroundImage.toBuffer()` (line 243);
* `compositeJpegRender bg spec fg q` — the background pipeline of
  `replaceBackground`: optional cover-fit resize to `spec`, composite of
  `fg` with blend over, jpeg encode at quality `q` (lines 235-247). -/
structure BgEnv where
  http : String → Buffer → ROptions → HttpOutcome
  localPipeline : Buffer → Except String Buffer
  threshold : Buffer → Except String Buffer
  metaDims : Buffer → Except String (Nat × Nat)
  toBufferRender : Buffer → Except String Buffer
  compositeJpegRender : Buffer → Option (Nat × Nat) → Buffer → Nat → Except String Buffer

/-- The result object returned by the removal paths (lines 86-92, 155-162,
210-217). Every constructor site in the source sets `success: true`. -/
structure RemovalResult where
  success : Bool
  service : String
  buffer : Buffer
  contentType : String
  cost : Nat
  note : Option String
  deriving Repr, DecidableEq

/-- Externally visible events, used to state "provider X was (not) invoked"
and which image operations ran. -/
inductive Event where
  | httpCall (serviceName : String)
  | localModel (modelName : String)
  | basicTransparency
  | resizeCover (w h : Nat)
  | compositeOver
  | jpegEncode (q : Nat)
  deriving Repr, DecidableEq

/-- `removeWithService` (remove-bg.js lines 54-106). Unknown service and
missing API key throw before any network traffic (empty trace); otherwise
exactly one HTTP call happens and a 402 / 429 / other rejection is rewrapped
as in lines 94-104. -/
def removeWithService (env : BgEnv) (keys : ApiKeys) (serviceName : String)
    (imageBuffer : Buffer) (opts : ROptions) : List Event × Except String RemovalResult :=
  match services keys serviceName with
  | none => ([], .error ("Service " ++ serviceName ++ " not configured"))
  | some service =>
    match service.apiKey with
    | none => ([], .error ("API key for " ++ service.name ++ " is required"))
    | some _ =>
      match env.http serviceName imageBuffer opts with
      | .ok data ct =>
        ([.httpCall serviceName],
         .ok { success := true, service := service.name, buffer := data,
               contentType := ct.getD "image/png", cost := service.costPerImage, note := none })
      | .fail status msg =>
        ([.httpCall serviceName],
         if status = some 402 then
           .error (service.name ++ ": Payment required or insufficient credits")
         else if status = some 429 then
           .error (service.name ++ ": Rate limit exceeded")
         else
           .error (service.name ++ " failed: " ++ msg))

/-- `removeWithLocalModel` (remove-bg.js lines 108-163). The sharp pipeline
(metadata, mask, composite) is the `localPipeline` oracle; its rejection
propagates. The `options` argument of the source is unused by the body. -/
def removeWithLocalModel (env : BgEnv) (modelName : String) (imageBuffer : Buffer)
    (_opts : ROptions) : List Event × Except String RemovalResult :=
  match localModels modelName with
  | none => ([], .error ("Local model " ++ modelName ++ " not available"))
  | some model =>
    match env.localPipeline imageBuffer with
    | .error e => ([.localModel modelName], .error e)
    | .ok resultBuffer =>
      ([.localModel modelName],
       .ok { success := true, service := "Local: " ++ model.name, buffer := resultBuffer,
             contentType := "image/png", cost := 0,
             note := some "This is a demo. Install proper model for accurate results." })

/-- `createBasicTransparency` (remove-bg.js lines 199-218). The sharp
threshold pipeline is the `threshold` oracle; its rejection propagates
(there is no catch in the source). -/
def createBasicTransparency (env : BgEnv) (imageBuffer : Buffer) :
    List Event × Except String RemovalResult :=
  match env.threshold imageBuffer with
  | .error e => ([.basicTransparency], .error e)
  | .ok resultBuffer =>
    ([.basicTransparency],
     .ok { success := true, service := "Basic Transparency", buffer := resultBuffer,
           contentType := "image/png", cost := 0,
           note := some "Basic threshold-based transparency applied" })

/-- One iteration of the priority loop of `autoRemoveBackground`
(lines 178-189): `"local"` dispatches to the u2net local model, a registered
service key dispatches to `removeWithService`, anything else falls through
silently; a thrown error is caught and turned into `none` (continue). -/
def attemptOne (env : BgEnv) (keys : ApiKeys) (imageBuffer : Buffer) (opts : ROptions)
    (serviceName : String) : List Event × Option RemovalResult :=
  if serviceName = "local" then
    match removeWithLocalModel env "u2net" imageBuffer opts with
    | (tr, .ok r) => (tr, some r)
    | (tr, .error _) => (tr, none)
  else
    match services keys serviceName with
    | some _ =>
      match removeWithService env keys serviceName imageBuffer opts with
      | (tr, .ok r) => (tr, some r)
      | (tr, .error _) => (tr, none)
    | none => ([], none)

/-- The full priority loop (lines 178-189): first success short-circuits. -/
def tryProviders (env : BgEnv) (keys : ApiKeys) (imageBuffer : Buffer) (opts : ROptions) :
    List String → List Event × Option RemovalResult
  | [] => ([], none)
  | s :: rest =>
    match attemptOne env keys imageBuffer opts s with
    | (tr, some r) => (tr, some r)
    | (tr, none) =>
      let next := tryProviders env keys imageBuffer opts rest
      (tr ++ next.1, next.2)

/-- `autoRemoveBackground` (remove-bg.js lines 165-197). The size guard
(lines 172-175) throws before the loop; the megabyte figure in the message
uses Nat division where the source uses float division (equal whenever
`maxFileSize` is a whole number of MiB, as the 10 MiB default is). -/
def autoRemoveBackground (env : BgEnv) (keys : ApiKeys) (imageBuffer : Buffer)
    (opts : ROptions) : List Event × Except String RemovalResult :=
  if imageBuffer.length > opts.maxFileSize then
    ([], .error ("File too large. Maximum size is " ++
                 toString (opts.maxFileSize / 1024 / 1024) ++ "MB"))
  else
    match tryProviders env keys imageBuffer opts opts.priority with
    | (tr, some r) => (tr, .ok r)
    | (tr, none) =>
      if opts.fallbackToLocal then
        let fb := createBasicTransparency env imageBuffer
        (tr ++ fb.1, fb.2)
      else
        (tr, .error "All background removal services failed")

/-- The result of `replaceBackground` (lines 249-254). `dimensions` is the
`${width}x${height}` string. -/
structure CompositeResult where
  success : Bool
  buffer : Buffer
  contentType : String
  dimensions : String
  deriving Repr, DecidableEq

/-- `replaceBackground` (remove-bg.js lines 220-259). Any thrown error is
rewrapped as "Background replacement failed: ..." by the catch (line 257).
The background is resized with cover fit to the foreground's dimensions only
when the two differ (lines 234-238); the final encode is always
`jpeg({ quality: 90 })` with content type image/jpeg (lines 246, 252). -/
def replaceBackground (env : BgEnv) (keys : ApiKeys) (imageBuffer backgroundBuffer : Buffer)
    (opts : ROptions) : List Event × Except String CompositeResult :=
  match autoRemoveBackground env keys imageBuffer opts with
  | (tr, .error e) => (tr, .error ("Background replacement failed: " ++ e))
  | (tr, .ok foreground) =>
    match env.metaDims foreground.buffer with
    | .error e => (tr, .error ("Background replacement failed: " ++ e))
    | .ok fgDims =>
      match env.metaDims backgroundBuffer with
      | .error e => (tr, .error ("Background replacement failed: " ++ e))
      | .ok bgDims =>
        let resizeSpec : Option (Nat × Nat) :=
          if fgDims.1 ≠ bgDims.1 ∨ fgDims.2 ≠ bgDims.2 then some fgDims else none
        let resizeEvents : List Event :=
          if fgDims.1 ≠ bgDims.1 ∨ fgDims.2 ≠ bgDims.2 then [.resizeCover fgDims.1 fgDims.2] else []
        match env.toBufferRender foreground.buffer with
        | .error e => (tr ++ resizeEvents, .error ("Background replacement failed: " ++ e))
        | .ok fgBuf =>
          match env.compositeJpegRender backgroundBuffer resizeSpec fgBuf 90 with
          | .error e =>
            (tr ++ resizeEvents ++ [.compositeOver, .jpegEncode 90],
             .error ("Background replacement failed: " ++ e))
          | .ok out =>
            (tr ++ resizeEvents ++ [.compositeOver, .jpegEncode 90],
             .ok { success := true, buffer := out, contentType := "image/jpeg",
                   dimensions := toString fgDims.1 ++ "x" ++ toString fgDims.2 })

/-! ## server/remove-bg.js : batch processing (lines 261-293) -/

/-- One settled entry of the `results` array in `batchRemoveBackground`
(lines 270-271): the `.then` wrapper on success, the `.catch` wrapper on
failure, each carrying the original index `i + index`. -/
structure ItemResult where
  success : Bool
  result : Option RemovalResult
  error : Option String
  index : Nat
  deriving Repr, DecidableEq

/-- The per-item promise of lines 268-272: `autoRemoveBackground` with its
outcome wrapped, never rethrowing. -/
def processItem (env : BgEnv) (keys : ApiKeys) (opts : ROptions) (k : Nat) (buf : Buffer) :
    ItemResult :=
  match (autoRemoveBackground env keys buf opts).2 with
  | .ok r => { success := true, result := some r, error := none, index := k }
  | .error e => { success := false, result := none, error := some e, index := k }

/-- `batch.map((buffer, index) => f (i + index) buffer)` with `Promise.all`
preserving array order: an index-threading map starting at `k`. -/
def mapFrom (f : Nat → Buffer → ItemResult) : Nat → List Buffer → List ItemResult
  | _, [] => []
  | k, b :: bs => f k b :: mapFrom f (k + 1) bs

/-- The chunking loop of `batchRemoveBackground` (lines 266-281):
`for (let i = 0; i < n; i += concurrent)` over `slice(i, i + concurrent)`.
`fuel` bounds the number of loop iterations the model is allowed to take
(the source loop never advances when `concurrent = 0`, so no finite fuel
completes in that case); `none` means the loop did not finish within `fuel`
iterations. The inter-chunk delay (lines 278-280) has no observable effect
in this model. -/
def batchLoop (env : BgEnv) (keys : ApiKeys) (opts : ROptions) (buffers : List Buffer) :
    Nat → Nat → Option (List ItemResult)
  | 0, _ => none
  | fuel + 1, i =>
    if i < buffers.length then
      let chunk := (buffers.drop i).take opts.concurrent
      let chunkResults := mapFrom (processItem env keys opts) i chunk
      match batchLoop env keys opts buffers fuel (i + opts.concurrent) with
      | none => none
      | some rest => some (chunkResults ++ rest)
    else
      some []

/-- The aggregate returned by `batchRemoveBackground` (lines 286-292).
`estimatedCost` is in cents: the source computes `successful.length * 0.02`
USD (line 291), i.e. `2 * successfulCount` cents, a flat rate irrespective
of which provider resolved each item. -/
structure BatchOutcome where
  total : Nat
  successful : Nat
  failed : Nat
  results : List ItemResult
  estimatedCost : Nat
  deriving Repr, DecidableEq

/-- `batchRemoveBackground` (remove-bg.js lines 261-293), with explicit loop
fuel (see `batchLoop`). -/
def batchRemoveBackground (env : BgEnv) (keys : ApiKeys) (buffers : List Buffer)
    (opts : ROptions) (fuel : Nat) : Option BatchOutcome :=
  (batchLoop env keys opts buffers fuel 0).map fun results =>
    { total := results.length
      successful := (results.filter (fun r => r.success)).length
      failed := (results.filter (fun r => !r.success)).length
      results := results
      estimatedCost := (results.filter (fun r => r.success)).length * 2 }

/-! ## server/compress-pdf.js : embedding

The filesystem visible to the compressor is the temp directory, modelled as an
association list from path to contents. `Date.now()` is modelled as a
monotone counter `time` (the recursive call uses `time + 1`); none of the
proofs depend on the two attempts choosing distinct names, matching the fact
that two `Date.now()` calls may fall in the same millisecond. -/

/-- Temp-directory contents: path to file contents. -/
abbrev FS := List (String × Buffer)

/-- The behaviour of `fs.unlink` is environment-dependent: `uf p = true`
means unlinking `p` fails with a non-ENOENT error (the file stays; the
source logs and swallows such errors, lines 140-145). -/
abbrev UnlinkFailure := String → Bool

/-- `fs.writeFile`: create or overwrite. -/
def fsWrite (p : String) (c : Buffer) (fs : FS) : FS :=
  (p, c) :: fs.filter (fun e => e.1 ≠ p)

/-- `fs.readFile`: contents or an ENOENT rejection. -/
def fsRead (p : String) (fs : FS) : Except String Buffer :=
  match fs.find? (fun e => e.1 = p) with
  | some e => .ok e.2
  | none => .error ("ENOENT: no such file or directory, open " ++ p)

/-- `fs.unlink` with the swallow-errors wrapper of `cleanupFiles`
(lines 137-146): removal on success, no change when the unlink fails
(non-ENOENT) or the file is absent (ENOENT, ignored). -/
def fsUnlink (uf : UnlinkFailure) (p : String) (fs : FS) : FS :=
  if uf p then fs else fs.filter (fun e => e.1 ≠ p)

/-- Whether a path currently exists in the temp directory. -/
def fsHas (p : String) (fs : FS) : Bool :=
  fs.any (fun e => e.1 = p)

/-- `cleanupFiles` (compress-pdf.js lines 136-149): best-effort unlink of
every path; per-file errors are swallowed, so it never throws. The source
awaits the unlinks concurrently; they touch distinct paths independently,
so a left fold is observationally the same. -/
def cleanupFiles (uf : UnlinkFailure) (paths : List String) (fs : FS) : FS :=
  paths.foldl (fun acc p => fsUnlink uf p acc) fs

/-- The options bag of `compress` (lines 66-71) together with the qpdf
options destructured in `compressWithQPdf` (line 45). -/
structure CompressOptions where
  method : String := "ghostscript"
  quality : String := "ebook"
  maxSizeMB : Nat := 5
  tempDir : String := "./temp"
  linearize : Bool := true
  removeUnused : Bool := true
  compressStreams : Bool := true
  deriving Repr, DecidableEq

/-- External-tool oracles for compress-pdf.js:
* `gs setting dpi input` — the ghostscript run of `compressWithGhostscript`
  (lines 26-35) for `-dPDFSETTINGS=setting` at image resolution `dpi`,
  returning the produced PDF bytes or the exec rejection message;
* `qpdf linearize removeUnused compressStreams input` — the qpdf run of
  `compressWithQPdf` (lines 47-57); `--object-streams=generate` is always
  appended, so it is not a parameter. -/
structure PdfEnv where
  gs : String → Nat → Buffer → Except String Buffer
  qpdf : Bool → Bool → Bool → Buffer → Except String Buffer

/-- Externally visible compressor events: one `toolRun` per external tool
invocation (tagged with the method and the `quality` option of that attempt)
and one `fileWrite` per temp file created. -/
inductive PdfEvent where
  | toolRun (method : String) (quality : String)
  | fileWrite (path : String)
  deriving Repr, DecidableEq

/-- JS `String.prototype.toLowerCase()` (ASCII case folding suffices for the
method names used here), as a structurally reducible map over the characters. -/
def toLowerCase (s : String) : String := ⟨s.data.map Char.toLower⟩

/-- The `qualityMap` of `compressWithGhostscript` (lines 15-21). -/
def qualityMap : String → Option String := fun q =>
  if q = "screen" then some "/screen"
  else if q = "ebook" then some "/ebook"
  else if q = "printer" then some "/printer"
  else if q = "prepress" then some "/prepress"
  else if q = "default" then some "/default"
  else none

/-- Line 24: `qualityMap[quality] || '/ebook'`. -/
def gsSetting (q : String) : String := (qualityMap q).getD "/ebook"

/-- Line 23: `quality === 'screen' ? 72 : 150`. -/
def gsDpi (q : String) : Nat := if q = "screen" then 72 else 150

/-- `compressWithGhostscript` (compress-pdf.js lines 13-41): read the input
file, run ghostscript (writing the output file), stat the output; any step
failing throws "Ghostscript compression failed: ...". A failed run is
modelled as producing no output file; the caller unlinks both paths
regardless, so nothing downstream depends on this. Returns the reported
output size, the updated temp directory, and the events. -/
def compressWithGhostscript (env : PdfEnv) (inputPath outputPath quality : String)
    (fs : FS) : Except String Nat × FS × List PdfEvent :=
  match fsRead inputPath fs with
  | .error e => (.error ("Ghostscript compression failed: " ++ e), fs, [.toolRun "ghostscript" quality])
  | .ok content =>
    match env.gs (gsSetting quality) (gsDpi quality) content with
    | .error e => (.error ("Ghostscript compression failed: " ++ e), fs, [.toolRun "ghostscript" quality])
    | .ok out =>
      (.ok out.length, fsWrite outputPath out fs,
       [.toolRun "ghostscript" quality, .fileWrite outputPath])

/-- `compressWithQPdf` (compress-pdf.js lines 43-63); the `quality` tag on
the event is the `quality` option of the enclosing attempt (qpdf itself
ignores it). -/
def compressWithQPdf (env : PdfEnv) (inputPath outputPath : String) (opts : CompressOptions)
    (fs : FS) : Except String Nat × FS × List PdfEvent :=
  match fsRead inputPath fs with
  | .error e => (.error ("qPDF compression failed: " ++ e), fs, [.toolRun "qpdf" opts.quality])
  | .ok content =>
    match env.qpdf opts.linearize opts.removeUnused opts.compressStreams content with
    | .error e => (.error ("qPDF compression failed: " ++ e), fs, [.toolRun "qpdf" opts.quality])
    | .ok out =>
      (.ok out.length, fsWrite outputPath out fs,
       [.toolRun "qpdf" opts.quality, .fileWrite outputPath])

/-- The successful return object of `compress` (lines 120-127). The
`reduction` percentage string (float formatting, line 109) is not modelled;
no claim depends on it. -/
structure CompressOutcome where
  success : Bool
  originalSize : Nat
  compressedSize : Nat
  buffer : Buffer
  methodUsed : String
  deriving Repr, DecidableEq

/-- One attempt of `compress` before the escalation check: lines 84-109.
Write the input buffer to `inputPath`, dispatch on `method.toLowerCase()`
(unsupported methods throw), read the compressed output back, then run
`cleanupFiles` on both paths — on the error paths this is the
`cleanupFiles(...).catch(() => {})` of line 131, on the success path the
unconditional cleanup of line 104. Either way every exit of an attempt has
executed cleanup on both of its paths. -/
def compressAttempt (env : PdfEnv) (uf : UnlinkFailure) (inputBuffer : Buffer)
    (opts : CompressOptions) (inputPath outputPath : String) (fs : FS) :
    Except String Buffer × FS × List PdfEvent :=
  let fs1 := fsWrite inputPath inputBuffer fs
  let ev0 : List PdfEvent := [.fileWrite inputPath]
  let step : Except String Nat × FS × List PdfEvent :=
    if toLowerCase opts.method = "ghostscript" then
      compressWithGhostscript env inputPath outputPath opts.quality fs1
    else if toLowerCase opts.method = "qpdf" then
      compressWithQPdf env inputPath outputPath opts fs1
    else
      (.error ("Unsupported method: " ++ opts.method), fs1, [])
  match step with
  | (.error e, fs2, ev1) =>
    (.error e, cleanupFiles uf [inputPath, outputPath] fs2, ev0 ++ ev1)
  | (.ok _size, fs2, ev1) =>
    match fsRead outputPath fs2 with
    | .error e => (.error e, cleanupFiles uf [inputPath, outputPath] fs2, ev0 ++ ev1)
    | .ok compressedBuffer =>
      (.ok compressedBuffer, cleanupFiles uf [inputPath, outputPath] fs2, ev0 ++ ev1)

/-- The temp input filename of the attempt at logical time `t`
(lines 77, 80); `path.join` is modelled as "/"-concatenation. -/
def inPath (opts : CompressOptions) (t : Nat) : String :=
  opts.tempDir ++ "/input_" ++ toString t ++ ".pdf"

/-- The temp output filename of the attempt at logical time `t`
(lines 78, 81). -/
def outPath (opts : CompressOptions) (t : Nat) : String :=
  opts.tempDir ++ "/compressed_" ++ toString t ++ ".pdf"

/-- `compress` (compress-pdf.js lines 65-134). After a successful attempt,
if the output still exceeds `maxSizeMB` MiB and the current quality is not
already `'screen'`, recurse with `quality: 'screen'` (lines 112-118) — the
retry jumps directly to the most aggressive preset. The recursion is bounded
because the retry's quality is `'screen'`, for which the guard is false:
the definition is total by the `termination_by` measure. If the recursive
call throws, the catch of line 130 re-runs cleanup on this attempt's paths
(a no-op: they were already cleaned) before rethrowing. -/
def compress (env : PdfEnv) (uf : UnlinkFailure) (inputBuffer : Buffer)
    (opts : CompressOptions) (time : Nat) (fs : FS) :
    Except String CompressOutcome × FS × List PdfEvent :=
  let inputPath := inPath opts time
  let outputPath := outPath opts time
  match compressAttempt env uf inputBuffer opts inputPath outputPath fs with
  | (.error e, fs1, ev) => (.error e, fs1, ev)
  | (.ok compressedBuffer, fs1, ev) =>
    if h : compressedBuffer.length > opts.maxSizeMB * 1024 * 1024 ∧ opts.quality ≠ "screen" then
      match compress env uf inputBuffer { opts with quality := "screen" } (time + 1) fs1 with
      | (.error e, fs2, ev2) =>
        (.error e, cleanupFiles uf [inputPath, outputPath] fs2, ev ++ ev2)
      | (.ok r, fs2, ev2) => (.ok r, fs2, ev ++ ev2)
    else
      (.ok { success := true, originalSize := inputBuffer.length,
             compressedSize := compressedBuffer.length, buffer := compressedBuffer,
             methodUsed := opts.method }, fs1, ev)
termination_by (if opts.quality = "screen" then 0 else 1)
decreasing_by simp [h.2]

/-- Projection of the quality tag of a tool-run event (used to state which
attempts a `compress` call performed, in order). -/
def toolQuality : PdfEvent → Option String
  | .toolRun _ q => some q
  | .fileWrite _ => none

/-- Modelled from the spec (section 4.6): the quality-escalation ladder the
spec describes, "prepress → printer → default → ebook → screen", one step at
a time. This definition follows the spec's words, for comparison with the
source's actual retry policy; it does not come from the source. -/
def specNextQuality : String → Option String := fun q =>
  if q = "prepress" then some "printer"
  else if q = "printer" then some "default"
  else if q = "default" then some "ebook"
  else if q = "ebook" then some "screen"
  else none

/-! ## Concrete environments used by witnesses and counterexamples -/

/-- An environment in which every remote call is rejected and every sharp
pipeline rejects its input (an undecodable buffer / unreachable network). -/
def failEnv : BgEnv where
  http := fun _ _ _ => .fail none "network unreachable"
  localPipeline := fun _ => .error "Input buffer contains unsupported image format"
  threshold := fun _ => .error "Input buffer contains unsupported image format"
  metaDims := fun _ => .error "Input buffer contains unsupported image format"
  toBufferRender := fun _ => .error "Input buffer contains unsupported image format"
  compositeJpegRender := fun _ _ _ _ => .error "Input buffer contains unsupported image format"

/-- Like `failEnv`, but the basic-transparency threshold pipeline succeeds
(identity on the buffer). -/
def thresholdOkEnv : BgEnv :=
  { failEnv with threshold := fun b => .ok b }

/-- Like `failEnv`, but the local-model sharp pipeline succeeds. -/
def localOkEnv : BgEnv :=
  { failEnv with localPipeline := fun b => .ok b }

/-- An environment where the local model and all image operations succeed;
dimensions of a buffer are (length, length). -/
def compositeEnv : BgEnv where
  http := fun _ _ _ => .fail none "network unreachable"
  localPipeline := fun b => .ok b
  threshold := fun b => .ok b
  metaDims := fun b => .ok (b.length, b.length)
  toBufferRender := fun b => .ok b
  compositeJpegRender := fun _ _ fg _ => .ok fg

/-- An environment where the service at key `"removebg"` is rate limited and
the two other remote services succeed; the local model fails. -/
def midSuccessEnv : BgEnv :=
  { failEnv with
    http := fun s _ _ =>
      if s = "removebg" then .fail (some 429) "rate limited" else .ok [9] (some "image/png") }

/-- A key set configuring all three remote services. -/
def allKeys : ApiKeys :=
  { removebg := some "k1", backgrounds := some "k2", clipdrop := some "k3" }

/-- A PDF-tool environment whose tools always succeed but always produce
output larger than a 0 MiB budget. -/
def pdfAllBig : PdfEnv where
  gs := fun _ _ _ => .ok [0, 0]
  qpdf := fun _ _ _ _ => .ok [0]

/-! ## Lemmas about the removal pipeline -/

theorem removeWithService_ok (env : BgEnv) (keys : ApiKeys) (s : String) (buf : Buffer)
    (opts : ROptions) (tr : List Event) (r : RemovalResult)
    (h : removeWithService env keys s buf opts = (tr, .ok r)) :
    r.success = true ∧ ∀ svc, services keys s = some svc → r.service = svc.name := by
  rcases hs : services keys s with _ | svc <;> simp only [removeWithService, hs] at h
  · simp at h
  · rcases hk : svc.apiKey with _ | k <;> simp only [hk] at h
    · simp at h
    · rcases hh : env.http s buf opts with ⟨d, ct⟩ | ⟨st, m⟩ <;> simp only [hh] at h
      · simp only [Prod.mk.injEq] at h
        obtain ⟨h1, h2⟩ := h
        injection h2 with h3
        subst h3
        refine ⟨rfl, ?_⟩
        intro svc2 hsvc2
        injection hsvc2 with h4
        rw [h4]
      · simp only [Prod.mk.injEq] at h
        obtain ⟨h1, h2⟩ := h
        split at h2
        · simp at h2
        · split at h2 <;> simp at h2

theorem removeWithLocalModel_ok (env : BgEnv) (m : String) (buf : Buffer) (opts : ROptions)
    (tr : List Event) (r : RemovalResult)
    (h : removeWithLocalModel env m buf opts = (tr, .ok r)) : r.success = true := by
  rcases hm : localModels m with _ | model <;> simp only [removeWithLocalModel, hm] at h
  · simp at h
  · rcases hp : env.localPipeline buf with e | out <;> simp only [hp] at h
    · simp at h
    · simp only [Prod.mk.injEq] at h
      obtain ⟨h1, h2⟩ := h
      injection h2 with h3
      subst h3
      rfl

theorem createBasicTransparency_ok (env : BgEnv) (buf : Buffer)
    (tr : List Event) (r : RemovalResult)
    (h : createBasicTransparency env buf = (tr, .ok r)) : r.success = true := by
  rcases hp : env.threshold buf with e | out <;> simp only [createBasicTransparency, hp] at h
  · simp at h
  · simp only [Prod.mk.injEq] at h
    obtain ⟨h1, h2⟩ := h
    injection h2 with h3
    subst h3
    rfl

theorem attemptOne_ok (env : BgEnv) (keys : ApiKeys) (buf : Buffer) (opts : ROptions)
    (s : String) (tr : List Event) (r : RemovalResult)
    (h : attemptOne env keys buf opts s = (tr, some r)) :
    r.success = true ∧ (s ≠ "local" → ∀ svc, services keys s = some svc → r.service = svc.name) := by
  by_cases hl : s = "local"
  · simp only [attemptOne, if_pos hl] at h
    rcases hlm : removeWithLocalModel env "u2net" buf opts with ⟨tr2, res⟩
    rw [hlm] at h
    rcases res with e | r2
    · simp at h
    · simp only [Prod.mk.injEq] at h
      obtain ⟨h1, h2⟩ := h
      injection h2 with h3
      subst h3
      exact ⟨removeWithLocalModel_ok env "u2net" buf opts tr2 r2 hlm, fun hc => absurd hl hc⟩
  · simp only [attemptOne, if_neg hl] at h
    rcases hs : services keys s with _ | svc <;> simp only [hs] at h
    · simp at h
    · rcases hrs : removeWithService env keys s buf opts with ⟨tr2, res⟩
      rw [hrs] at h
      rcases res with e | r2
      · simp at h
      · simp only [Prod.mk.injEq] at h
        obtain ⟨h1, h2⟩ := h
        injection h2 with h3
        subst h3
        obtain ⟨hsucc, hname⟩ := removeWithService_ok env keys s buf opts tr2 r2 hrs
        exact ⟨hsucc, fun _ svc2 hsvc2 => hname svc2 (hs.trans hsvc2)⟩

theorem tryProviders_ok (env : BgEnv) (keys : ApiKeys) (buf : Buffer) (opts : ROptions)
    (l : List String) (tr : List Event) (r : RemovalResult)
    (h : tryProviders env keys buf opts l = (tr, some r)) : r.success = true := by
  induction l generalizing tr with
  | nil => simp [tryProviders] at h
  | cons s rest ih =>
    simp only [tryProviders] at h
    rcases ha : attemptOne env keys buf opts s with ⟨tr1, o⟩
    rw [ha] at h
    rcases o with _ | r1
    · simp only [Prod.mk.injEq] at h
      obtain ⟨h1, h2⟩ := h
      exact ih _ (by rw [← h2])
    · simp only [Prod.mk.injEq] at h
      obtain ⟨h1, h2⟩ := h
      injection h2 with h3
      subst h3
      exact (attemptOne_ok env keys buf opts s tr1 r1 ha).1

/-- The priority loop skips over a prefix whose every entry yields no result,
accumulating only those entries' traces (remove-bg.js lines 178-189). -/
theorem tryProviders_skip (env : BgEnv) (keys : ApiKeys) (buf : Buffer) (opts : ROptions)
    (p₁ rest : List String)
    (hfail : ∀ s ∈ p₁, (attemptOne env keys buf opts s).2 = none) :
    tryProviders env keys buf opts (p₁ ++ rest) =
      ((p₁.map fun s => (attemptOne env keys buf opts s).1).flatten ++
         (tryProviders env keys buf opts rest).1,
       (tryProviders env keys buf opts rest).2) := by
  induction p₁ with
  | nil => simp
  | cons s p ih =>
    have ihh := ih (fun x hx => hfail x (by simp [hx]))
    have ho := hfail s (by simp)
    rcases ha : attemptOne env keys buf opts s with ⟨tr1, o⟩
    rw [ha] at ho
    simp only at ho
    subst ho
    simp only [List.cons_append, tryProviders, ha, List.append_eq, ihh, List.map_cons,
      List.flatten_cons, List.append_assoc]

/-- Entries that are neither `"local"` nor a registered service key produce
no trace and no result. -/
theorem tryProviders_unknown (env : BgEnv) (keys : ApiKeys) (buf : Buffer) (opts : ROptions)
    (l : List String)
    (hall : ∀ s ∈ l, s ≠ "local" ∧ services keys s = none) :
    tryProviders env keys buf opts l = ([], none) := by
  induction l with
  | nil => rfl
  | cons s rest ih =>
    obtain ⟨h1, h2⟩ := hall s (by simp)
    have ihh := ih (fun x hx => hall x (by simp [hx]))
    simp only [tryProviders, attemptOne, if_neg h1, h2, ihh, List.nil_append]

/-! ## Claim C1 -/

/-- C1, counterexample: with every provider failing, fallback enabled, a
non-empty priority order, and a buffer under the size limit, the claim says
`autoRemoveBackground` returns success — but when the buffer is one the
image codec cannot decode, the fallback's own sharp pipeline rejects and the
call throws instead (remove-bg.js lines 192-194 await `createBasicTransparency`,
whose sharp chain at lines 204-208 has no catch). -/
theorem autoRemove_fallback_can_throw_cex :
    ([1, 2, 3] : Buffer).length ≤ ({} : ROptions).maxFileSize ∧
    ({} : ROptions).fallbackToLocal = true ∧
    ({} : ROptions).priority ≠ [] ∧
    (autoRemoveBackground failEnv {} [1, 2, 3] {}).2 =
      .error "Input buffer contains unsupported image format" := by
  refine ⟨by decide, rfl, by decide, by rfl⟩

/-- C1 (amended): for every removal request whose buffer length is at most
`maxFileSize`, `autoRemoveBackground` with `fallbackToLocal` enabled returns
a `RemovalResult` with `success = true`, even when every provider in the
priority order fails — provided the basic-transparency transform succeeds on
the buffer (i.e. the buffer is an image the codec can process). -/
theorem autoRemove_total_when_threshold_decodes (env : BgEnv) (keys : ApiKeys)
    (buf : Buffer) (opts : ROptions) (out : Buffer)
    (hsize : buf.length ≤ opts.maxFileSize)
    (hfb : opts.fallbackToLocal = true)
    (hth : env.threshold buf = .ok out) :
    ∃ tr r, autoRemoveBackground env keys buf opts = (tr, .ok r) ∧ r.success = true := by
  simp only [autoRemoveBackground]
  rw [if_neg (by omega)]
  rcases htp : tryProviders env keys buf opts opts.priority with ⟨tr, o⟩
  rcases o with _ | r
  · rw [hfb]
    simp only [if_true, createBasicTransparency, hth]
    exact ⟨tr ++ [Event.basicTransparency], _, rfl, rfl⟩
  · exact ⟨tr, r, rfl, tryProviders_ok env keys buf opts opts.priority tr r htp⟩

/-- C1 witness: a concrete instance of the amended claim, in an environment
where every provider fails and only the threshold fallback succeeds. -/
theorem autoRemove_total_when_threshold_decodes_witness :
    (([9] : Buffer).length ≤ ({} : ROptions).maxFileSize ∧
     ({} : ROptions).fallbackToLocal = true ∧
     thresholdOkEnv.threshold [9] = .ok [9]) ∧
    ∃ tr r, autoRemoveBackground thresholdOkEnv {} [9] {} = (tr, .ok r) ∧ r.success = true :=
  ⟨⟨by decide, rfl, rfl⟩,
   autoRemove_total_when_threshold_decodes thresholdOkEnv {} [9] {} [9] (by decide) rfl rfl⟩

/-! ## Claim C7 -/

/-- C7: for every image buffer strictly longer than `maxFileSize`,
`autoRemoveBackground` throws the size-exceeded error with an empty event
trace: no HTTP call, no local-model pipeline run, and no fallback transform
is performed (remove-bg.js lines 172-175 throw before the provider loop). -/
theorem autoRemove_size_exceeded_fail_fast (env : BgEnv) (keys : ApiKeys)
    (buf : Buffer) (opts : ROptions) (h : opts.maxFileSize < buf.length) :
    autoRemoveBackground env keys buf opts =
      ([], .error ("File too large. Maximum size is " ++
                   toString (opts.maxFileSize / 1024 / 1024) ++ "MB")) := by
  simp only [autoRemoveBackground]
  rw [if_pos (by omega)]

/-- C7 witness: a two-byte buffer against a 1 byte limit fails fast with an
empty trace. -/
theorem autoRemove_size_exceeded_fail_fast_witness :
    ({ maxFileSize := 1 } : ROptions).maxFileSize < ([5, 6] : Buffer).length ∧
    autoRemoveBackground failEnv {} [5, 6] { maxFileSize := 1 } =
      ([], .error "File too large. Maximum size is 0MB") :=
  ⟨by decide, by
    rw [autoRemove_size_exceeded_fail_fast failEnv {} [5, 6] { maxFileSize := 1 } (by decide)]
    rfl⟩

/-! ## Claim C10 -/

/-- C10: a priority-order entry that is neither `"local"` nor a registered
service key is silently skipped — no provider is invoked and no failure is
recorded — so a priority order of only unknown names behaves exactly like an
empty one; with fallback disabled the call throws the all-providers-failed
error with an empty event trace. -/
theorem autoRemove_unknown_entries_skipped (env : BgEnv) (keys : ApiKeys)
    (buf : Buffer) (opts : ROptions)
    (hall : ∀ s ∈ opts.priority, s ≠ "local" ∧ services keys s = none)
    (hfb : opts.fallbackToLocal = false)
    (hsize : buf.length ≤ opts.maxFileSize) :
    autoRemoveBackground env keys buf opts =
      ([], .error "All background removal services failed") ∧
    autoRemoveBackground env keys buf opts =
      autoRemoveBackground env keys buf { opts with priority := [] } := by
  have h1 : autoRemoveBackground env keys buf opts =
      ([], .error "All background removal services failed") := by
    simp only [autoRemoveBackground]
    rw [if_neg (by omega), tryProviders_unknown env keys buf opts opts.priority hall]
    simp [hfb]
  refine ⟨h1, ?_⟩
  rw [h1]
  simp only [autoRemoveBackground]
  rw [if_neg (by omega)]
  simp only [tryProviders]
  simp [hfb]

/-- C10 witness: a priority order of two unknown names, fallback disabled. -/
theorem autoRemove_unknown_entries_skipped_witness :
    (∀ s ∈ ({ priority := ["foo", "bar"], fallbackToLocal := false } : ROptions).priority,
       s ≠ "local" ∧ services {} s = none) ∧
    autoRemoveBackground failEnv {} [1] { priority := ["foo", "bar"], fallbackToLocal := false } =
      ([], .error "All background removal services failed") :=
  ⟨by decide,
   (autoRemove_unknown_entries_skipped failEnv {} [1]
      { priority := ["foo", "bar"], fallbackToLocal := false }
      (by decide) rfl (by decide)).1⟩

/-! ## Lemmas about the batch runner -/

theorem mapFrom_length (f : Nat → Buffer → ItemResult) :
    ∀ (l : List Buffer) (k : Nat), (mapFrom f k l).length = l.length := by
  intro l
  induction l with
  | nil => intro k; rfl
  | cons b bs ih => intro k; simp [mapFrom, ih (k + 1)]

theorem mapFrom_take_drop (f : Nat → Buffer → ItemResult) (c : Nat) :
    ∀ (l : List Buffer) (k : Nat),
      mapFrom f k l = mapFrom f k (l.take c) ++ mapFrom f (k + c) (l.drop c) := by
  induction c with
  | zero => intro l k; simp [mapFrom]
  | succ c ih =>
    intro l k
    cases l with
    | nil => simp [mapFrom]
    | cons b bs =>
      simp only [List.take_succ_cons, List.drop_succ_cons, mapFrom, List.cons_append]
      rw [ih bs (k + 1)]
      have harith : k + (c + 1) = k + 1 + c := by omega
      rw [harith]

theorem mapFrom_get (f : Nat → Buffer → ItemResult) (hf : ∀ n b, (f n b).index = n) :
    ∀ (l : List Buffer) (k j : Nat) (hj : j < (mapFrom f k l).length),
      ((mapFrom f k l).get ⟨j, hj⟩).index = k + j := by
  intro l
  induction l with
  | nil => intro k j hj; simp [mapFrom] at hj
  | cons b bs ih =>
    intro k j hj
    cases j with
    | zero => simpa [mapFrom] using hf k b
    | succ j =>
      have hj2 : j < (mapFrom f (k + 1) bs).length := by
        simpa [mapFrom] using Nat.lt_of_succ_lt_succ hj
      have h3 := ih (k + 1) j hj2
      simp only [mapFrom, List.get_cons_succ]
      exact h3.trans (by omega)

theorem processItem_index (env : BgEnv) (keys : ApiKeys) (opts : ROptions) :
    ∀ n b, (processItem env keys opts n b).index = n := by
  intro n b
  unfold processItem
  split <;> rfl

/-- With a positive concurrency limit, the chunk loop from position `i`
finishes within `length - i + 1` iterations and yields exactly the indexed
map of the remaining items. -/
theorem batchLoop_complete (env : BgEnv) (keys : ApiKeys) (opts : ROptions)
    (buffers : List Buffer) (hc : 1 ≤ opts.concurrent) :
    ∀ (fuel i : Nat), buffers.length - i < fuel →
      batchLoop env keys opts buffers fuel i =
        some (mapFrom (processItem env keys opts) i (buffers.drop i)) := by
  intro fuel
  induction fuel with
  | zero => intro i h; omega
  | succ fuel ih =>
    intro i h
    simp only [batchLoop]
    by_cases hi : i < buffers.length
    · rw [if_pos hi, ih (i + opts.concurrent) (by omega)]
      have hdd : buffers.drop (i + opts.concurrent) = (buffers.drop i).drop opts.concurrent := by
        rw [List.drop_drop]
      rw [hdd, mapFrom_take_drop (processItem env keys opts) opts.concurrent (buffers.drop i) i]
    · rw [if_neg hi]
      rw [List.drop_eq_nil_of_le (by omega)]
      rfl

/-- With concurrency limit 0 and a position strictly inside the list, the
chunk loop never advances: no amount of fuel completes it. -/
theorem batchLoop_stuck (env : BgEnv) (keys : ApiKeys) (opts : ROptions)
    (buffers : List Buffer) (hc : opts.concurrent = 0) :
    ∀ (fuel i : Nat), i < buffers.length → batchLoop env keys opts buffers fuel i = none := by
  intro fuel
  induction fuel with
  | zero => intro i _; rfl
  | succ fuel ih =>
    intro i hi
    simp only [batchLoop, if_pos hi, hc, Nat.add_zero, ih i hi]

theorem length_filter_split (p : ItemResult → Bool) (l : List ItemResult) :
    (l.filter p).length + (l.filter (fun x => !p x)).length = l.length := by
  induction l with
  | nil => rfl
  | cons a l ih =>
    by_cases hp : p a <;> simp [List.filter, hp, ← ih] <;> omega

/-! ## Claim C2 -/

/-- C2, counterexample: with concurrency limit 0 and a non-empty list the
source loop `for (let i = 0; i < n; i += concurrent)` never advances, so
`batchRemoveBackground` never returns an outcome: no loop fuel completes it
(remove-bg.js line 266). -/
theorem batch_concurrency_zero_never_completes_cex :
    (∃ fuel, (batchRemoveBackground failEnv {} [[1]] { concurrent := 0 } fuel).isSome = true) ↔
      False := by
  constructor
  · rintro ⟨fuel, hf⟩
    have h0 := batchLoop_stuck failEnv {} { concurrent := 0 } [[1]] rfl fuel 0 (by decide)
    rw [batchRemoveBackground, h0] at hf
    simp at hf
  · exact False.elim

/-- C2 (amended): for every list of image buffers and every positive
concurrency limit, `batchRemoveBackground` (whose chunk loop completes
within `length + 1` iterations) returns a structured outcome whose per-item
results appear in input order — the result at position `k` carries index `k`
— and whose successful count plus failed count equals the total, even when
every individual item fails; with concurrency limit 0 and a non-empty list
the loop never completes. -/
theorem batch_ordered_counts (env : BgEnv) (keys : ApiKeys)
    (buffers : List Buffer) (opts : ROptions) (hc : 1 ≤ opts.concurrent) :
    ∃ o, batchRemoveBackground env keys buffers opts (buffers.length + 1) = some o ∧
      o.total = buffers.length ∧
      o.successful + o.failed = o.total ∧
      o.results.length = o.total ∧
      ∀ j (hj : j < o.results.length), (o.results.get ⟨j, hj⟩).index = j := by
  have h := batchLoop_complete env keys opts buffers hc (buffers.length + 1) 0 (by omega)
  rw [List.drop_zero] at h
  rw [batchRemoveBackground, h]
  refine ⟨_, rfl, ?_, ?_, ?_, ?_⟩
  · exact mapFrom_length (processItem env keys opts) buffers 0
  · exact length_filter_split (fun r => r.success) (mapFrom (processItem env keys opts) 0 buffers)
  · exact mapFrom_length (processItem env keys opts) buffers 0 |>.trans
      (mapFrom_length (processItem env keys opts) buffers 0).symm
  · intro j hj
    simpa using mapFrom_get (processItem env keys opts) (processItem_index env keys opts)
      buffers 0 j hj

/-- C2 witness: four items, concurrency 3, all failing. -/
theorem batch_ordered_counts_witness :
    (1 ≤ ({ concurrent := 3 } : ROptions).concurrent) ∧
    ∃ o, batchRemoveBackground failEnv {} [[1], [2], [3], [4]] { concurrent := 3 } 5 = some o ∧
      o.total = 4 ∧
      o.successful + o.failed = o.total ∧
      o.results.length = o.total ∧
      ∀ j (hj : j < o.results.length), (o.results.get ⟨j, hj⟩).index = j := by
  refine ⟨by decide, ?_⟩
  obtain ⟨o, h1, h2, h3, h4, h5⟩ :=
    batch_ordered_counts failEnv {} [[1], [2], [3], [4]] { concurrent := 3 } (by decide)
  exact ⟨o, h1, h2, h3, by rw [h4, h2], h5⟩

/-! ## Claim C3 -/

/-- C3, counterexample: a single item resolved by the zero-cost local model
(its `RemovalResult.cost` is 0) still contributes the flat 2-cent rate to the
estimated total: the source computes `successful.length * 0.02` regardless of
which provider resolved each item (remove-bg.js line 291), so the estimate is
2 cents where the claim requires 0. -/
theorem batch_flat_cost_cex :
    batchRemoveBackground localOkEnv {} [[7]] {} 2 =
      some { total := 1, successful := 1, failed := 0,
             results := [{ success := true,
                           result := some { success := true, service := "Local: U^2-Net",
                                            buffer := [7], contentType := "image/png", cost := 0,
                                            note := some "This is a demo. Install proper model for accurate results." },
                           error := none, index := 0 }],
             estimatedCost := 2 } ∧ (2 : Nat) ≠ 0 := by
  exact ⟨by decide, by decide⟩

/-- C3 (amended): in every batch outcome the estimated total cost is the flat
rate of 2 cents (0.02 USD) times the number of successful items, regardless
of which provider resolved each item and of that provider's actual per-image
cost; in particular locally-resolved and fallback-resolved items are charged
at the same flat rate rather than zero. -/
theorem batch_cost_flat_rate (env : BgEnv) (keys : ApiKeys) (buffers : List Buffer)
    (opts : ROptions) (fuel : Nat) (o : BatchOutcome)
    (h : batchRemoveBackground env keys buffers opts fuel = some o) :
    o.estimatedCost = 2 * o.successful := by
  rcases hb : batchLoop env keys opts buffers fuel 0 with _ | results
  · rw [batchRemoveBackground, hb] at h
    simp at h
  · rw [batchRemoveBackground, hb] at h
    simp only [Option.map_some'] at h
    injection h with h2
    rw [← h2]
    simp [Nat.mul_comm]

/-- C3 witness: the flat-rate law applied to a concrete batch resolved by the
local model. -/
theorem batch_cost_flat_rate_witness :
    ∃ o, batchRemoveBackground localOkEnv {} [[7]] {} 2 = some o ∧
      o.estimatedCost = 2 * o.successful :=
  ⟨_, rfl, batch_cost_flat_rate localOkEnv {} [[7]] {} 2 _ rfl⟩

/-! ## Lemmas about the temp filesystem -/

theorem fsRead_write_self (p : String) (c : Buffer) (fs : FS) :
    fsRead p (fsWrite p c fs) = .ok c := by
  simp [fsRead, fsWrite]

theorem fsHas_write_elim (n p : String) (c : Buffer) (fs : FS)
    (h : fsHas n (fsWrite p c fs) = true) : n = p ∨ fsHas n fs = true := by
  simp only [fsHas, fsWrite, List.any_cons, Bool.or_eq_true, decide_eq_true_eq,
    List.any_eq_true, List.mem_filter] at h ⊢
  rcases h with h | ⟨e, ⟨he, _⟩, hn⟩
  · exact Or.inl h.symm
  · exact Or.inr ⟨e, he, hn⟩

theorem fsHas_unlink_elim (uf : UnlinkFailure) (p n : String) (fs : FS)
    (h : fsHas n (fsUnlink uf p fs) = true) : fsHas n fs = true := by
  unfold fsUnlink at h
  split at h
  · exact h
  · simp only [fsHas, List.any_eq_true, List.mem_filter] at h ⊢
    obtain ⟨e, ⟨he, _⟩, hn⟩ := h
    exact ⟨e, he, hn⟩

theorem fsHas_unlink_self (uf : UnlinkFailure) (n : String) (fs : FS)
    (h : uf n = false) : fsHas n (fsUnlink uf n fs) = false := by
  rw [fsUnlink, if_neg (by simp [h])]
  simp only [fsHas, List.any_eq_false, List.mem_filter, decide_eq_true_eq,
    decide_eq_false_iff_not]
  intro e he
  exact he.2

theorem cleanup_pair (uf : UnlinkFailure) (a b : String) (fs : FS) :
    cleanupFiles uf [a, b] fs = fsUnlink uf b (fsUnlink uf a fs) := rfl

theorem cleanup_removes (uf : UnlinkFailure) (a b n : String) (fs : FS)
    (h : uf n = false) (hn : n = a ∨ n = b) :
    fsHas n (cleanupFiles uf [a, b] fs) = false := by
  rw [cleanup_pair]
  rcases hn with rfl | rfl
  · cases hfin : fsHas n (fsUnlink uf b (fsUnlink uf n fs))
    · rfl
    · have h2 := fsHas_unlink_elim uf b n _ hfin
      rw [fsHas_unlink_self uf n fs h] at h2
      exact absurd h2 (by simp)
  · exact fsHas_unlink_self uf n _ h

theorem cleanup_mono (uf : UnlinkFailure) (a b n : String) (fs : FS)
    (h : fsHas n (cleanupFiles uf [a, b] fs) = true) : fsHas n fs = true := by
  rw [cleanup_pair] at h
  exact fsHas_unlink_elim uf a n fs (fsHas_unlink_elim uf b n _ h)

/-! ## Characterization of a single compression attempt -/

/-- The outcome of the external tool dispatched by an attempt, as a pure
function of the environment, the input buffer and the options (derived
characterization of compress-pdf.js lines 89-98 plus the tool wrappers). -/
def toolOutcome (env : PdfEnv) (buf : Buffer) (opts : CompressOptions) : Except String Buffer :=
  if toLowerCase opts.method = "ghostscript" then
    match env.gs (gsSetting opts.quality) (gsDpi opts.quality) buf with
    | .error e => .error ("Ghostscript compression failed: " ++ e)
    | .ok out => .ok out
  else if toLowerCase opts.method = "qpdf" then
    match env.qpdf opts.linearize opts.removeUnused opts.compressStreams buf with
    | .error e => .error ("qPDF compression failed: " ++ e)
    | .ok out => .ok out
  else .error ("Unsupported method: " ++ opts.method)

/-- The tool-run events an attempt records (one per dispatched tool; none
for an unsupported method). -/
def toolEvents (opts : CompressOptions) : List PdfEvent :=
  if toLowerCase opts.method = "ghostscript" then [.toolRun "ghostscript" opts.quality]
  else if toLowerCase opts.method = "qpdf" then [.toolRun "qpdf" opts.quality]
  else []

theorem compressAttempt_eq (env : PdfEnv) (uf : UnlinkFailure) (buf : Buffer)
    (opts : CompressOptions) (ip op : String) (fs : FS) :
    compressAttempt env uf buf opts ip op fs =
      match toolOutcome env buf opts with
      | .error e =>
        (.error e, cleanupFiles uf [ip, op] (fsWrite ip buf fs), PdfEvent.fileWrite ip :: toolEvents opts)
      | .ok out =>
        (.ok out, cleanupFiles uf [ip, op] (fsWrite op out (fsWrite ip buf fs)),
         PdfEvent.fileWrite ip :: (toolEvents opts ++ [PdfEvent.fileWrite op])) := by
  unfold compressAttempt toolOutcome toolEvents
  by_cases hg : toLowerCase opts.method = "ghostscript"
  · simp only [hg, if_pos rfl, compressWithGhostscript, fsRead_write_self]
    rcases henv : env.gs (gsSetting opts.quality) (gsDpi opts.quality) buf with e | out
    · rfl
    · simp [fsRead_write_self]
  · by_cases hq : toLowerCase opts.method = "qpdf"
    · simp only [hg, hq, if_neg, if_pos rfl, if_false, compressWithQPdf, fsRead_write_self]
      rcases henv : env.qpdf opts.linearize opts.removeUnused opts.compressStreams buf with e | out
      · simp
      · simp [fsRead_write_self]
    · simp [hg, hq]

theorem compressAttempt_fst (env : PdfEnv) (uf : UnlinkFailure) (buf : Buffer)
    (opts : CompressOptions) (ip op : String) (fs : FS) :
    (compressAttempt env uf buf opts ip op fs).1 = toolOutcome env buf opts := by
  rw [compressAttempt_eq]
  rcases toolOutcome env buf opts with e | out <;> rfl

theorem compressAttempt_trace (env : PdfEnv) (uf : UnlinkFailure) (buf : Buffer)
    (opts : CompressOptions) (ip op : String) (fs : FS) :
    (compressAttempt env uf buf opts ip op fs).2.2 =
      match toolOutcome env buf opts with
      | .error _ => PdfEvent.fileWrite ip :: toolEvents opts
      | .ok _ => PdfEvent.fileWrite ip :: (toolEvents opts ++ [PdfEvent.fileWrite op]) := by
  rw [compressAttempt_eq]
  rcases toolOutcome env buf opts with e | out <;> rfl

theorem toolEvents_no_write (opts : CompressOptions) (n : String) :
    PdfEvent.fileWrite n ∉ toolEvents opts := by
  unfold toolEvents
  split
  · simp
  · split <;> simp

theorem compressAttempt_writes (env : PdfEnv) (uf : UnlinkFailure) (buf : Buffer)
    (opts : CompressOptions) (ip op : String) (fs : FS) (n : String)
    (h : PdfEvent.fileWrite n ∈ (compressAttempt env uf buf opts ip op fs).2.2) :
    n = ip ∨ n = op := by
  rw [compressAttempt_trace] at h
  rcases hT : toolOutcome env buf opts with e | out <;> rw [hT] at h <;>
    simp only [List.mem_cons, List.mem_append, List.mem_singleton] at h
  · rcases h with h | h
    · exact Or.inl (by injection h)
    · exact absurd h (toolEvents_no_write opts n)
  · rcases h with h | h | h | h
    · exact Or.inl (by injection h)
    · exact absurd h (toolEvents_no_write opts n)
    · exact Or.inr (by injection h)
    · exact absurd h (by simp)

theorem compressAttempt_cleaned (env : PdfEnv) (uf : UnlinkFailure) (buf : Buffer)
    (opts : CompressOptions) (ip op : String) (fs : FS) (n : String)
    (hn : PdfEvent.fileWrite n ∈ (compressAttempt env uf buf opts ip op fs).2.2)
    (hu : uf n = false) :
    fsHas n (compressAttempt env uf buf opts ip op fs).2.1 = false := by
  have hw := compressAttempt_writes env uf buf opts ip op fs n hn
  rw [compressAttempt_eq]
  rcases hT : toolOutcome env buf opts with e | out <;> simp only
  · exact cleanup_removes uf ip op n _ hu hw
  · exact cleanup_removes uf ip op n _ hu hw

theorem compressAttempt_mono (env : PdfEnv) (uf : UnlinkFailure) (buf : Buffer)
    (opts : CompressOptions) (ip op : String) (fs : FS) (n : String)
    (h : fsHas n (compressAttempt env uf buf opts ip op fs).2.1 = true) :
    fsHas n fs = true ∨ PdfEvent.fileWrite n ∈ (compressAttempt env uf buf opts ip op fs).2.2 := by
  rw [compressAttempt_eq] at h ⊢
  rcases hT : toolOutcome env buf opts with e | out
  · rw [hT] at h
    have h2 := cleanup_mono uf ip op n (fsWrite ip buf fs) h
    rcases fsHas_write_elim n ip buf fs h2 with rfl | hf
    · exact Or.inr (by simp)
    · exact Or.inl hf
  · rw [hT] at h
    have h2 := cleanup_mono uf ip op n (fsWrite op out (fsWrite ip buf fs)) h
    rcases fsHas_write_elim n op out (fsWrite ip buf fs) h2 with rfl | h3
    · exact Or.inr (by simp)
    · rcases fsHas_write_elim n ip buf fs h3 with rfl | hf
      · exact Or.inr (by simp)
      · exact Or.inl hf

/-! ## Lemmas about `compress` -/

/-- One unfolding of the recursive `compress`. -/
theorem compress_eq (env : PdfEnv) (uf : UnlinkFailure) (buf : Buffer)
    (opts : CompressOptions) (time : Nat) (fs : FS) :
    compress env uf buf opts time fs =
      match compressAttempt env uf buf opts (inPath opts time) (outPath opts time) fs with
      | (.error e, fs1, ev) => (.error e, fs1, ev)
      | (.ok compressedBuffer, fs1, ev) =>
        if compressedBuffer.length > opts.maxSizeMB * 1024 * 1024 ∧ opts.quality ≠ "screen" then
          match compress env uf buf { opts with quality := "screen" } (time + 1) fs1 with
          | (.error e, fs2, ev2) =>
            (.error e, cleanupFiles uf [inPath opts time, outPath opts time] fs2, ev ++ ev2)
          | (.ok r, fs2, ev2) => (.ok r, fs2, ev ++ ev2)
        else
          (.ok { success := true, originalSize := buf.length,
                 compressedSize := compressedBuffer.length, buffer := compressedBuffer,
                 methodUsed := opts.method }, fs1, ev) := by
  rw [compress]
  rcases compressAttempt env uf buf opts (inPath opts time) (outPath opts time) fs
    with ⟨res, fs1, ev⟩
  rcases res with e | cb
  · rfl
  · dsimp only
    rw [dite_eq_ite]

/-- When the current quality is already `"screen"`, no retry happens. -/
theorem compress_screen (env : PdfEnv) (uf : UnlinkFailure) (buf : Buffer)
    (opts : CompressOptions) (time : Nat) (fs : FS) (hq : opts.quality = "screen") :
    compress env uf buf opts time fs =
      match compressAttempt env uf buf opts (inPath opts time) (outPath opts time) fs with
      | (.error e, fs1, ev) => (.error e, fs1, ev)
      | (.ok compressedBuffer, fs1, ev) =>
        (.ok { success := true, originalSize := buf.length,
               compressedSize := compressedBuffer.length, buffer := compressedBuffer,
               methodUsed := opts.method }, fs1, ev) := by
  rw [compress_eq]
  rcases compressAttempt env uf buf opts (inPath opts time) (outPath opts time) fs
    with ⟨res, fs1, ev⟩
  rcases res with e | cb
  · rfl
  · dsimp only
    rw [if_neg (by simp [hq])]

/-- The value component of `compress` is a pure function of the environment,
the input buffer and the options: it does not depend on the filesystem
contents, the unlink behaviour, or the timestamp. -/
theorem compress_fst (env : PdfEnv) (uf : UnlinkFailure) (buf : Buffer)
    (opts : CompressOptions) (time : Nat) (fs : FS) :
    (compress env uf buf opts time fs).1 =
      match toolOutcome env buf opts with
      | .error e => .error e
      | .ok cb =>
        if cb.length > opts.maxSizeMB * 1024 * 1024 ∧ opts.quality ≠ "screen" then
          match toolOutcome env buf { opts with quality := "screen" } with
          | .error e => .error e
          | .ok cb2 =>
            .ok { success := true, originalSize := buf.length, compressedSize := cb2.length,
                  buffer := cb2, methodUsed := opts.method }
        else
          .ok { success := true, originalSize := buf.length, compressedSize := cb.length,
                buffer := cb, methodUsed := opts.method } := by
  have hscreen : ∀ (uf2 : UnlinkFailure) (t2 : Nat) (fs2 : FS),
      (compress env uf2 buf { opts with quality := "screen" } t2 fs2).1 =
        match toolOutcome env buf { opts with quality := "screen" } with
        | .error e => .error e
        | .ok cb2 =>
          .ok { success := true, originalSize := buf.length, compressedSize := cb2.length,
                buffer := cb2, methodUsed := opts.method } := by
    intro uf2 t2 fs2
    rw [compress_screen env uf2 buf _ t2 fs2 rfl]
    rcases hB : compressAttempt env uf2 buf { opts with quality := "screen" }
        (inPath { opts with quality := "screen" } t2) (outPath { opts with quality := "screen" } t2) fs2
      with ⟨res2, fsB, evB⟩
    have hres2 : res2 = toolOutcome env buf { opts with quality := "screen" } := by
      rw [← compressAttempt_fst env uf2 buf { opts with quality := "screen" }
        (inPath { opts with quality := "screen" } t2) (outPath { opts with quality := "screen" } t2) fs2, hB]
    rw [← hres2]
    rcases res2 with e | cb2 <;> rfl
  rw [compress_eq]
  rcases hA : compressAttempt env uf buf opts (inPath opts time) (outPath opts time) fs
    with ⟨res, fs1, ev⟩
  have hres : res = toolOutcome env buf opts := by
    rw [← compressAttempt_fst env uf buf opts (inPath opts time) (outPath opts time) fs, hA]
  rw [← hres]
  rcases res with e | cb
  · rfl
  · dsimp only
    by_cases hcond : cb.length > opts.maxSizeMB * 1024 * 1024 ∧ opts.quality ≠ "screen"
    · rw [if_pos hcond, if_pos hcond]
      have h2 := hscreen uf (time + 1) fs1
      rcases hC : compress env uf buf { opts with quality := "screen" } (time + 1) fs1
        with ⟨res3, fs3, ev3⟩
      rw [hC] at h2
      simp only at h2
      rw [← h2]
      rcases res3 with e3 | r3 <;> rfl
    · rw [if_neg hcond, if_neg hcond]

/-! ## Claim C4 -/

/-- C4, counterexample: starting at quality `"prepress"` with every output
over budget, the second (and final) attempt runs at `"screen"` — not at
`"printer"`, the next level of the spec's ladder. The retry at
compress-pdf.js lines 114-117 sets `quality: 'screen'` directly. -/
theorem compress_skips_quality_levels_cex :
    ((compress pdfAllBig (fun _ => false) [1, 2, 3]
        { quality := "prepress", maxSizeMB := 0 } 0 []).2.2.filterMap toolQuality) =
      ["prepress", "screen"] ∧
    specNextQuality "prepress" = some "printer" ∧ ("screen" : String) ≠ "printer" := by
  refine ⟨?_, by decide, by decide⟩
  rw [compress_eq]
  have hA : compressAttempt pdfAllBig (fun _ => false) [1, 2, 3]
      { quality := "prepress", maxSizeMB := 0 }
      (inPath { quality := "prepress", maxSizeMB := 0 } 0)
      (outPath { quality := "prepress", maxSizeMB := 0 } 0) [] =
      (.ok [0, 0], [], [.fileWrite "./temp/input_0.pdf", .toolRun "ghostscript" "prepress",
        .fileWrite "./temp/compressed_0.pdf"]) := rfl
  rw [hA]
  dsimp only
  rw [if_pos (by decide)]
  rw [compress_screen _ _ _ _ _ _ rfl]
  decide

/-- The tool-run quality tags of one ghostscript attempt are exactly the
attempt's `quality` option. -/
theorem attempt_trace_quality (env : PdfEnv) (uf : UnlinkFailure) (buf : Buffer)
    (opts2 : CompressOptions) (ip op : String) (fs2 : FS)
    (hm : toLowerCase opts2.method = "ghostscript") :
    ((compressAttempt env uf buf opts2 ip op fs2).2.2).filterMap toolQuality = [opts2.quality] := by
  rw [compressAttempt_trace]
  have hte : toolEvents opts2 = [PdfEvent.toolRun "ghostscript" opts2.quality] := by
    unfold toolEvents
    rw [if_pos hm]
  rcases toolOutcome env buf opts2 with e | o <;> simp [hte, toolQuality]

/-- A `compress` call whose quality is already `"screen"` performs exactly
one tool run, at quality `"screen"`. -/
theorem compress_screen_trace (env : PdfEnv) (uf : UnlinkFailure) (buf : Buffer)
    (opts2 : CompressOptions) (t2 : Nat) (fs2 : FS)
    (hm : toLowerCase opts2.method = "ghostscript") (hq : opts2.quality = "screen") :
    ((compress env uf buf opts2 t2 fs2).2.2).filterMap toolQuality = ["screen"] := by
  rw [compress_screen env uf buf opts2 t2 fs2 hq]
  rcases hB : compressAttempt env uf buf opts2 (inPath opts2 t2) (outPath opts2 t2) fs2
    with ⟨res2, fsB, evB⟩
  have hq2 := attempt_trace_quality env uf buf opts2 (inPath opts2 t2) (outPath opts2 t2) fs2 hm
  rw [hB] at hq2
  rcases res2 with e | c <;> dsimp only <;> rw [← hq] <;> exact hq2

/-! ## Claim C4 (amended theorem) -/

/-- C4 (amended): whenever a ghostscript attempt's output exceeds the size
budget and the current quality level is not already `"screen"`, `compress`
retries directly at the most aggressive level `"screen"`, skipping any
intermediate levels of the prepress → printer → default → ebook → screen
ladder: the attempt sequence is exactly `[startingQuality, "screen"]`. -/
theorem compress_escalates_directly_to_screen (env : PdfEnv) (uf : UnlinkFailure)
    (buf out1 : Buffer) (opts : CompressOptions) (time : Nat) (fs : FS)
    (hm : opts.method = "ghostscript")
    (hq : opts.quality ≠ "screen")
    (h1 : env.gs (gsSetting opts.quality) 150 buf = .ok out1)
    (hb1 : out1.length > opts.maxSizeMB * 1024 * 1024) :
    ((compress env uf buf opts time fs).2.2).filterMap toolQuality = [opts.quality, "screen"] := by
  have hm2 : toLowerCase opts.method = "ghostscript" := by
    rw [hm]
    rfl
  have hT1 : toolOutcome env buf opts = .ok out1 := by
    unfold toolOutcome
    rw [if_pos hm2]
    have hd : gsDpi opts.quality = 150 := by
      unfold gsDpi
      rw [if_neg hq]
    rw [hd, h1]
  rw [compress_eq]
  rcases hA : compressAttempt env uf buf opts (inPath opts time) (outPath opts time) fs
    with ⟨res, fs1, ev⟩
  have hres : res = Except.ok out1 := by
    have hf := compressAttempt_fst env uf buf opts (inPath opts time) (outPath opts time) fs
    rw [hA, hT1] at hf
    exact hf
  subst hres
  dsimp only
  rw [if_pos ⟨hb1, hq⟩]
  have hev : ev.filterMap toolQuality = [opts.quality] := by
    have ht := attempt_trace_quality env uf buf opts (inPath opts time) (outPath opts time) fs hm2
    rw [hA] at ht
    exact ht
  have hscreen := compress_screen_trace env uf buf { opts with quality := "screen" }
    (time + 1) fs1 hm2 rfl
  rcases hC : compress env uf buf { opts with quality := "screen" } (time + 1) fs1
    with ⟨res3, fs3, ev3⟩
  rw [hC] at hscreen
  rcases res3 with e3 | r3 <;> dsimp only <;>
    rw [List.filterMap_append, hev,
      show ev3.filterMap toolQuality = ["screen"] from hscreen] <;> rfl

/-- C4 witness (for the amended theorem): starting at `"prepress"` with a
0 MiB budget, the attempt sequence is `["prepress", "screen"]`. -/
theorem compress_escalates_directly_to_screen_witness :
    (({ quality := "prepress", maxSizeMB := 0 } : CompressOptions).method = "ghostscript" ∧
     ({ quality := "prepress", maxSizeMB := 0 } : CompressOptions).quality ≠ "screen" ∧
     pdfAllBig.gs (gsSetting "prepress") 150 [1] = .ok [0, 0] ∧
     ([0, 0] : Buffer).length > ({ quality := "prepress", maxSizeMB := 0 } : CompressOptions).maxSizeMB * 1024 * 1024) ∧
    ((compress pdfAllBig (fun _ => false) [1] { quality := "prepress", maxSizeMB := 0 } 0 []).2.2).filterMap
        toolQuality = ["prepress", "screen"] :=
  ⟨⟨rfl, by decide, rfl, by decide⟩,
   compress_escalates_directly_to_screen pdfAllBig (fun _ => false) [1] [0, 0]
     { quality := "prepress", maxSizeMB := 0 } 0 [] rfl (by decide) rfl (by decide)⟩

/-! ## Claim C5 -/

/-- C5: when every ghostscript run on this input produces output over the
size budget and the starting quality is below `"screen"`, `compress`
terminates after exactly one further attempt — at `"screen"` — and returns
the over-budget result as a non-fatal success (`success = true`, reporting
the over-budget `compressedSize`) rather than throwing. The trace lists both
attempts in order; the model itself is total (the recursion is bounded by
the `termination_by` measure on the quality). -/
theorem compress_two_attempts_over_budget (env : PdfEnv) (uf : UnlinkFailure)
    (buf out1 out2 : Buffer) (opts : CompressOptions) (time : Nat) (fs : FS)
    (hm : opts.method = "ghostscript")
    (hq : opts.quality ≠ "screen")
    (h1 : env.gs (gsSetting opts.quality) 150 buf = .ok out1)
    (h2 : env.gs "/screen" 72 buf = .ok out2)
    (hb1 : out1.length > opts.maxSizeMB * 1024 * 1024)
    (hb2 : out2.length > opts.maxSizeMB * 1024 * 1024) :
    ∃ fs', compress env uf buf opts time fs =
      (.ok { success := true, originalSize := buf.length, compressedSize := out2.length,
             buffer := out2, methodUsed := "ghostscript" }, fs',
       [PdfEvent.fileWrite (inPath opts time), PdfEvent.toolRun "ghostscript" opts.quality,
        PdfEvent.fileWrite (outPath opts time), PdfEvent.fileWrite (inPath opts (time + 1)),
        PdfEvent.toolRun "ghostscript" "screen",
        PdfEvent.fileWrite (outPath opts (time + 1))]) ∧
      out2.length > opts.maxSizeMB * 1024 * 1024 := by
  have hm2 : toLowerCase opts.method = "ghostscript" := by
    rw [hm]
    rfl
  have hT1 : toolOutcome env buf opts = .ok out1 := by
    unfold toolOutcome
    rw [if_pos hm2]
    have hd : gsDpi opts.quality = 150 := by
      unfold gsDpi
      rw [if_neg hq]
    rw [hd, h1]
  have hT2 : toolOutcome env buf { opts with quality := "screen" } = .ok out2 := by
    unfold toolOutcome
    rw [if_pos (show toLowerCase ({ opts with quality := "screen" } : CompressOptions).method =
      "ghostscript" from hm2)]
    rw [show gsSetting ({ opts with quality := "screen" } : CompressOptions).quality = "/screen"
      from rfl]
    rw [show gsDpi ({ opts with quality := "screen" } : CompressOptions).quality = 72 from rfl]
    rw [h2]
  rw [compress_eq]
  rcases hA : compressAttempt env uf buf opts (inPath opts time) (outPath opts time) fs
    with ⟨res, fs1, ev⟩
  have hres : res = Except.ok out1 := by
    have hf := compressAttempt_fst env uf buf opts (inPath opts time) (outPath opts time) fs
    rw [hA, hT1] at hf
    exact hf
  subst hres
  dsimp only
  rw [if_pos ⟨hb1, hq⟩]
  rw [compress_screen env uf buf { opts with quality := "screen" } (time + 1) fs1 rfl]
  rw [compressAttempt_eq, hT2]
  dsimp only
  have hev : ev = PdfEvent.fileWrite (inPath opts time) ::
      (toolEvents opts ++ [PdfEvent.fileWrite (outPath opts time)]) := by
    have ht := compressAttempt_trace env uf buf opts (inPath opts time) (outPath opts time) fs
    rw [hA, hT1] at ht
    exact ht
  have hte : toolEvents opts = [PdfEvent.toolRun "ghostscript" opts.quality] := by
    unfold toolEvents
    rw [if_pos hm2]
  have hte2 : toolEvents { opts with quality := "screen" } =
      [PdfEvent.toolRun "ghostscript" "screen"] := by
    unfold toolEvents
    rw [if_pos (show toLowerCase ({ opts with quality := "screen" } : CompressOptions).method =
      "ghostscript" from hm2)]
  refine ⟨cleanupFiles uf
      [inPath { opts with quality := "screen" } (time + 1),
       outPath { opts with quality := "screen" } (time + 1)]
      (fsWrite (outPath { opts with quality := "screen" } (time + 1)) out2
        (fsWrite (inPath { opts with quality := "screen" } (time + 1)) buf fs1)), ?_, hb2⟩
  rw [hev, hte, hte2, hm]
  rfl

/-- C5 witness: a concrete two-attempt over-budget run. -/
theorem compress_two_attempts_over_budget_witness :
    ∃ fs', compress pdfAllBig (fun _ => false) [1] { quality := "ebook", maxSizeMB := 0 } 0 [] =
      (.ok { success := true, originalSize := 1, compressedSize := 2,
             buffer := [0, 0], methodUsed := "ghostscript" }, fs',
       [PdfEvent.fileWrite (inPath { quality := "ebook", maxSizeMB := 0 } 0),
        PdfEvent.toolRun "ghostscript" "ebook",
        PdfEvent.fileWrite (outPath { quality := "ebook", maxSizeMB := 0 } 0),
        PdfEvent.fileWrite (inPath { quality := "ebook", maxSizeMB := 0 } 1),
        PdfEvent.toolRun "ghostscript" "screen",
        PdfEvent.fileWrite (outPath { quality := "ebook", maxSizeMB := 0 } 1)]) ∧
      ([0, 0] : Buffer).length > (0 : Nat) * 1024 * 1024 :=
  compress_two_attempts_over_budget pdfAllBig (fun _ => false) [1] [0, 0] [0, 0]
    { quality := "ebook", maxSizeMB := 0 } 0 [] rfl (by decide) rfl rfl (by decide) (by decide)

/-! ## Claim C6 -/

/-- C6: after every `compress` invocation — returning successfully or
throwing — every temp file created by that invocation (each `fileWrite` in
its trace) is absent from the final temp directory, provided unlinking those
files does not itself fail; and the returned value (result or thrown error)
is identical whatever the unlink behaviour is, so cleanup failures never
mask the primary result or error. -/
theorem compress_cleans_temp_files (env : PdfEnv) (uf uf' : UnlinkFailure) (buf : Buffer)
    (opts : CompressOptions) (time : Nat) (fs : FS)
    (hu : ∀ n, PdfEvent.fileWrite n ∈ (compress env uf buf opts time fs).2.2 → uf n = false) :
    (∀ n, PdfEvent.fileWrite n ∈ (compress env uf buf opts time fs).2.2 →
       fsHas n (compress env uf buf opts time fs).2.1 = false)
    ∧ (compress env uf buf opts time fs).1 = (compress env uf' buf opts time fs).1 := by
  constructor
  · rw [compress_eq] at hu ⊢
    rcases hA : compressAttempt env uf buf opts (inPath opts time) (outPath opts time) fs
      with ⟨res, fs1, ev⟩
    rw [hA] at hu
    rcases res with e | cb
    · dsimp only at hu ⊢
      intro n hn
      have hc := compressAttempt_cleaned env uf buf opts (inPath opts time) (outPath opts time)
        fs n (by rw [hA]; exact hn) (hu n hn)
      rw [hA] at hc
      exact hc
    · dsimp only at hu ⊢
      by_cases hcond : cb.length > opts.maxSizeMB * 1024 * 1024 ∧ opts.quality ≠ "screen"
      · rw [if_pos hcond] at hu ⊢
        rw [compress_screen env uf buf { opts with quality := "screen" } (time + 1) fs1 rfl]
          at hu ⊢
        rcases hB : compressAttempt env uf buf { opts with quality := "screen" }
            (inPath { opts with quality := "screen" } (time + 1))
            (outPath { opts with quality := "screen" } (time + 1)) fs1
          with ⟨res2, fsB, evB⟩
        rw [hB] at hu
        rcases res2 with e2 | cb2 <;> dsimp only at hu ⊢
        · intro n hn
          have hun := hu n hn
          rcases List.mem_append.1 hn with h1 | h2
          · have hw := compressAttempt_writes env uf buf opts (inPath opts time)
              (outPath opts time) fs n (by rw [hA]; exact h1)
            exact cleanup_removes uf (inPath opts time) (outPath opts time) n fsB hun hw
          · have hcl : fsHas n fsB = false := by
              have hc := compressAttempt_cleaned env uf buf { opts with quality := "screen" }
                (inPath { opts with quality := "screen" } (time + 1))
                (outPath { opts with quality := "screen" } (time + 1)) fs1 n
                (by rw [hB]; exact h2) hun
              rw [hB] at hc
              exact hc
            cases hfin : fsHas n (cleanupFiles uf [inPath opts time, outPath opts time] fsB)
            · rfl
            · exact absurd (cleanup_mono uf (inPath opts time) (outPath opts time) n fsB hfin)
                (by rw [hcl]; simp)
        · intro n hn
          have hun := hu n hn
          rcases List.mem_append.1 hn with h1 | h2
          · have hf1 : fsHas n fs1 = false := by
              have hc := compressAttempt_cleaned env uf buf opts (inPath opts time)
                (outPath opts time) fs n (by rw [hA]; exact h1) hun
              rw [hA] at hc
              exact hc
            cases hfin : fsHas n fsB
            · rfl
            · rcases compressAttempt_mono env uf buf { opts with quality := "screen" }
                  (inPath { opts with quality := "screen" } (time + 1))
                  (outPath { opts with quality := "screen" } (time + 1)) fs1 n
                  (by rw [hB]; exact hfin) with hc1 | hc2
              · exact absurd hc1 (by rw [hf1]; simp)
              · have hc := compressAttempt_cleaned env uf buf { opts with quality := "screen" }
                  (inPath { opts with quality := "screen" } (time + 1))
                  (outPath { opts with quality := "screen" } (time + 1)) fs1 n hc2 hun
                rw [hB] at hc
                rw [hc] at hfin
                exact absurd hfin (by simp)
          · have hc := compressAttempt_cleaned env uf buf { opts with quality := "screen" }
              (inPath { opts with quality := "screen" } (time + 1))
              (outPath { opts with quality := "screen" } (time + 1)) fs1 n
              (by rw [hB]; exact h2) hun
            rw [hB] at hc
            exact hc
      · rw [if_neg hcond] at hu ⊢
        intro n hn
        have hc := compressAttempt_cleaned env uf buf opts (inPath opts time) (outPath opts time)
          fs n (by rw [hA]; exact hn) (hu n hn)
        rw [hA] at hc
        exact hc
  · rw [compress_fst env uf buf opts time fs, compress_fst env uf' buf opts time fs]

/-- C6 witness: a concrete escalating run with reliable unlinks on one side
and always-failing unlinks on the other. -/
theorem compress_cleans_temp_files_witness :
    (∀ n, PdfEvent.fileWrite n ∈
        (compress pdfAllBig (fun _ => false) [1] { quality := "prepress", maxSizeMB := 0 } 0 []).2.2 →
      fsHas n (compress pdfAllBig (fun _ => false) [1]
        { quality := "prepress", maxSizeMB := 0 } 0 []).2.1 = false)
    ∧ (compress pdfAllBig (fun _ => false) [1] { quality := "prepress", maxSizeMB := 0 } 0 []).1 =
        (compress pdfAllBig (fun _ => true) [1] { quality := "prepress", maxSizeMB := 0 } 0 []).1 :=
  compress_cleans_temp_files pdfAllBig (fun _ => false) (fun _ => true) [1]
    { quality := "prepress", maxSizeMB := 0 } 0 [] (fun _ _ => rfl)

/-! ## Claim C8 -/

/-- C8: `autoRemoveBackground` short-circuits on the first success: if every
entry of a prefix of the priority order yields no result and the next entry
succeeds, the returned result is that entry's result, the event trace ends
with that entry's events — so no later entry is ever invoked — and when the
successful entry is a remote service its result names that service. -/
theorem autoRemove_short_circuit (env : BgEnv) (keys : ApiKeys) (buf : Buffer) (opts : ROptions)
    (p₁ p₂ : List String) (b : String) (trb : List Event) (r : RemovalResult)
    (hp : opts.priority = p₁ ++ b :: p₂)
    (hsize : buf.length ≤ opts.maxFileSize)
    (hfail : ∀ s ∈ p₁, (attemptOne env keys buf opts s).2 = none)
    (hb : attemptOne env keys buf opts b = (trb, some r)) :
    autoRemoveBackground env keys buf opts =
      ((p₁.map fun s => (attemptOne env keys buf opts s).1).flatten ++ trb, .ok r)
    ∧ ∀ svc, b ≠ "local" → services keys b = some svc → r.service = svc.name := by
  constructor
  · simp only [autoRemoveBackground]
    rw [if_neg (by omega), hp, tryProviders_skip env keys buf opts p₁ (b :: p₂) hfail]
    simp only [tryProviders, hb]
  · intro svc hbl hsvc
    exact (attemptOne_ok env keys buf opts b trb r hb).2 hbl svc hsvc

/-- C8 witness: providers `[removebg (rate limited), backgrounds (succeeds),
clipdrop (would succeed)]` — the result names BackgroundRemover.ai and the
trace shows `clipdrop` was never contacted. -/
theorem autoRemove_short_circuit_witness :
    autoRemoveBackground midSuccessEnv allKeys [1]
        { priority := ["removebg", "backgrounds", "clipdrop"] } =
      ([Event.httpCall "removebg", Event.httpCall "backgrounds"],
       .ok { success := true, service := "BackgroundRemover.ai", buffer := [9],
             contentType := "image/png", cost := 3, note := none }) := by
  have h := (autoRemove_short_circuit midSuccessEnv allKeys [1]
      { priority := ["removebg", "backgrounds", "clipdrop"] }
      ["removebg"] ["clipdrop"] "backgrounds" [Event.httpCall "backgrounds"]
      { success := true, service := "BackgroundRemover.ai", buffer := [9],
        contentType := "image/png", cost := 3, note := none }
      rfl (by decide) (by decide) rfl).1
  rw [h]
  rfl

/-! ## Claim C9 -/

/-- C9, counterexample: a composite request whose options ask for `"png"`
output is still encoded as JPEG: `replaceBackground` always calls
`.jpeg({ quality: 90 })` and reports content type `image/jpeg`
(remove-bg.js lines 246, 252); the caller's `format` option is never
consulted for the output encoding. -/
theorem replaceBackground_format_ignored_cex :
    ({ format := some "png" } : ROptions).format = some "png" ∧
    ((replaceBackground compositeEnv {} [1, 2] [3] { format := some "png" }).2.map
        (fun r => r.contentType)) = .ok "image/jpeg" ∧
    ("image/jpeg" : String) ≠ "image/png" := by
  refine ⟨rfl, by rfl, by decide⟩

/-- C9 (amended): for every composite request (with each image operation
succeeding), `replaceBackground` resizes the background with cover fit to
the foreground's dimensions exactly when the two images' dimensions differ,
layers the removed-background foreground over the background with blend
over, and encodes the output as JPEG at quality 90 with content type
`image/jpeg` — regardless of any output format requested in the caller's
options. -/
theorem replaceBackground_cover_composite_jpeg (env : BgEnv) (keys : ApiKeys)
    (imageBuffer backgroundBuffer : Buffer) (opts : ROptions) (tr : List Event)
    (fg : RemovalResult) (fgW fgH bgW bgH : Nat) (fgBuf out : Buffer)
    (h1 : autoRemoveBackground env keys imageBuffer opts = (tr, .ok fg))
    (h2 : env.metaDims fg.buffer = .ok (fgW, fgH))
    (h3 : env.metaDims backgroundBuffer = .ok (bgW, bgH))
    (h4 : env.toBufferRender fg.buffer = .ok fgBuf)
    (h5 : env.compositeJpegRender backgroundBuffer
        (if fgW ≠ bgW ∨ fgH ≠ bgH then some (fgW, fgH) else none) fgBuf 90 = .ok out) :
    replaceBackground env keys imageBuffer backgroundBuffer opts =
      (tr ++ (if fgW ≠ bgW ∨ fgH ≠ bgH then [Event.resizeCover fgW fgH] else []) ++
        [Event.compositeOver, Event.jpegEncode 90],
       .ok { success := true, buffer := out, contentType := "image/jpeg",
             dimensions := toString fgW ++ "x" ++ toString fgH }) := by
  simp only [replaceBackground, h1, h2, h3, h4, h5]

/-- C9 witness: foreground dimensions (2,2) against background (1,1) — the
resize-cover step runs and the output is JPEG. -/
theorem replaceBackground_cover_composite_jpeg_witness :
    replaceBackground compositeEnv {} [1, 2] [3] {} =
      ([Event.localModel "u2net", Event.resizeCover 2 2, Event.compositeOver, Event.jpegEncode 90],
       .ok { success := true, buffer := [1, 2], contentType := "image/jpeg",
             dimensions := "2x2" }) := by
  have h := replaceBackground_cover_composite_jpeg compositeEnv {} [1, 2] [3] {}
      [Event.localModel "u2net"]
      { success := true, service := "Local: U^2-Net", buffer := [1, 2], contentType := "image/png",
        cost := 0, note := some "This is a demo. Install proper model for accurate results." }
      2 2 1 1 [1, 2] [1, 2] rfl rfl rfl rfl rfl
  rw [h]
  rfl

end FileResizer
